import Mathlib

/-!
# Verification of the vieus-sport-api ingestion pipeline

A shallow embedding of the Python sources `src/vet.py`, `src/api.py` and
`src/dut.py` of the `whtsel/vieus-sport-api` repository, together with
theorems settling the frozen claims about the natural-language
specification.

Modelling conventions:

* HTML documents parsed with BeautifulSoup are abstracted to structures
  holding exactly the outcomes of the soup queries the code performs
  (e.g. `find('a', class_='live')` becomes an `Option LinkTag` field).
* Dictionaries built up key-by-key become structures whose fields are
  `Option`-valued; a `none` field models an absent key (Python code reads
  the dictionaries exclusively through `.get`, which conflates an absent
  key with a stored `None`).
* Network calls become oracle functions `String → Nat → Option doc`
  (url and timeout in seconds); a `none` result models any
  `requests` exception, including a request timeout.  Each fetching
  function also returns the list of HTTP requests it issued, so the
  timeout passed on each request is part of the observable behaviour.
* Thread pools with `as_completed` are modelled by an explicit completion
  `order : List Nat` (a permutation of the task indices in the theorems);
  results are collected in that order.
* `datetime` values are a plain structure of numeric fields.
-/

namespace Vieus

/-- A calendar timestamp as produced by `datetime.strptime`/`replace`;
only the fields the code ever reads (year, month, day for date equality,
plus the parsed hour/minute). -/
structure PyDateTime where
  year : Nat
  month : Nat
  day : Nat
  hour : Nat
  minute : Nat
deriving DecidableEq, Repr

/-! ## Character classes used by the regular expressions in `vet.py` -/

/-- `\d` of Python `re` restricted to ASCII input: a decimal digit. -/
def isDigitChar (c : Char) : Bool :=
  '0' ≤ c && c ≤ '9'

/-- `[A-Za-z]`. -/
def isAsciiLetter (c : Char) : Bool :=
  ('A' ≤ c && c ≤ 'Z') || ('a' ≤ c && c ≤ 'z')

/-- `\s` of Python `re` restricted to ASCII input: space, tab, newline,
carriage return, vertical tab, form feed. -/
def isWsChar (c : Char) : Bool :=
  c = ' ' || c = '\t' || c = '\n' || c = '\r' || c = '\x0b' || c = '\x0c'

/-- `\w` of Python `re` restricted to ASCII input (used for the `\b`
word-boundary test): letter, digit or underscore. -/
def isWordChar (c : Char) : Bool :=
  isAsciiLetter c || isDigitChar c || c = '_'

/-- Numeric value of a string of decimal digits (most significant first). -/
def natOfDigits (cs : List Char) : Nat :=
  cs.foldl (fun n c => n * 10 + (c.toNat - '0'.toNat)) 0

/-! ## `re.search(r'(\d+)\s+([A-Za-z]+)\s+at\s+(\d+:\d+)', text)`
(`vet.py` line 91-92).

For this particular pattern greedy matching admits no effective
backtracking: each `\d+`/`[A-Za-z]+`/`\s+` run is followed by a character
of a disjoint class, so every group is forced to be the maximal run, and
an attempt starting in the middle of a digit run succeeds exactly when the
attempt at the start of that run does.  `re.search` therefore returns the
match at the earliest starting position where the structural scan below
succeeds, with each group the maximal run. -/

/-- Try to match `(\d+)\s+([A-Za-z]+)\s+at\s+(\d+:\d+)` anchored at the
start of `cs`; on success return the three captured groups. -/
def matchDatePatternAt (cs : List Char) : Option (String × String × String) :=
  let (d1, r1) := cs.span isDigitChar
  if d1.isEmpty then none else
  let (w1, r2) := r1.span isWsChar
  if w1.isEmpty then none else
  let (ls, r3) := r2.span isAsciiLetter
  if ls.isEmpty then none else
  let (w2, r4) := r3.span isWsChar
  if w2.isEmpty then none else
  match r4 with
  | 'a' :: 't' :: r5 =>
    let (w3, r6) := r5.span isWsChar
    if w3.isEmpty then none else
    let (d2, r7) := r6.span isDigitChar
    if d2.isEmpty then none else
    (match r7 with
     | ':' :: r8 =>
       let (d3, _) := r8.span isDigitChar
       if d3.isEmpty then none
       else some (String.mk d1, String.mk ls, String.mk (d2 ++ ':' :: d3))
     | _ => none)
  | _ => none

/-- Auxiliary scan for `searchDatePattern`: try the anchored match at every
suffix, earliest first (the semantics of `re.search`). -/
def searchDatePatternGo : List Char → Option (String × String × String)
  | [] => none
  | c :: rest =>
    match matchDatePatternAt (c :: rest) with
    | some r => some r
    | none => searchDatePatternGo rest

/-- `re.search(r'(\d+)\s+([A-Za-z]+)\s+at\s+(\d+:\d+)', s)`, returning the
three captured groups of the first match. -/
def searchDatePattern (s : String) : Option (String × String × String) :=
  searchDatePatternGo s.data

/-! ## `datetime.strptime(date_part, '%d %B at %H:%M')` (`vet.py` line 97).

`date_part` is rebuilt as `f"{g1} {g2} at {g3}"` from the captured groups.
CPython's `_strptime` compiles the format to an anchored, fully-consuming
regular expression: `%d` is `(3[01]|[12]\d|0[1-9]|[1-9])`, `%B` is the
alternation of the full English month names (case-insensitively), `%H` is
`(2[0-3]|[0-1]\d|\d)`, `%M` is `([0-5]\d|\d)`, and the whole input string
must be consumed.  Because `g1`, `g2` and the two components of `g3` are
maximal digit/letter runs, each token must be matched in full, which gives
the length/value conditions below.  The parse uses the default year 1900,
so the day-of-month is validated against 1900 (February has 28 days);
`replace(year=current_year)` then substitutes the current year. -/

/-- `%d` applied to a full digit token: one digit `1`-`9`, or two digits
with value `01`-`31`. -/
def parseDayToken (cs : List Char) : Option Nat :=
  if cs.all isDigitChar then
    match cs with
    | [c] => if c = '0' then none else some (natOfDigits [c])
    | [c1, c2] =>
      let v := natOfDigits [c1, c2]
      if 1 ≤ v && v ≤ 31 then some v else none
    | _ => none
  else none

/-- ASCII lower-casing of one character, by code point. -/
def lowerCharNat (c : Char) : Nat :=
  if 'A' ≤ c && c ≤ 'Z' then c.toNat + 32 else c.toNat

/-- Case-insensitive (ASCII) equality of a candidate token against a
lower-case pattern. -/
def ciMatch : List Char → List Char → Bool
  | [], [] => true
  | p :: ps, c :: cs => lowerCharNat c = p.toNat && ciMatch ps cs
  | _, _ => false

/-- The twelve English month names, lower-case, in calendar order. -/
def monthNamesLower : List (List Char) :=
  ["january".data, "february".data, "march".data, "april".data,
   "may".data, "june".data, "july".data, "august".data,
   "september".data, "october".data, "november".data, "december".data]

/-- Position (starting at `k`) of the first name in `l` the token matches
case-insensitively. -/
def monthIdx : List (List Char) → Nat → List Char → Option Nat
  | [], _, _ => none
  | nm :: rest, k, g => if ciMatch nm g then some k else monthIdx rest (k + 1) g

/-- `%B` applied to a full letter token: a full English month name,
case-insensitively, giving the month number 1-12. -/
def parseMonthName (g : String) : Option Nat :=
  monthIdx monthNamesLower 1 g.data

/-- `%H` applied to a full digit token: one digit, or two digits `00`-`23`. -/
def parseHourToken (cs : List Char) : Option Nat :=
  match cs with
  | [c] => if isDigitChar c then some (natOfDigits [c]) else none
  | [c1, c2] =>
    if isDigitChar c1 && isDigitChar c2 then
      let v := natOfDigits [c1, c2]
      if v ≤ 23 then some v else none
    else none
  | _ => none

/-- `%M` applied to a full digit token: one digit, or two digits `00`-`59`. -/
def parseMinuteToken (cs : List Char) : Option Nat :=
  match cs with
  | [c] => if isDigitChar c then some (natOfDigits [c]) else none
  | [c1, c2] =>
    if isDigitChar c1 && isDigitChar c2 then
      let v := natOfDigits [c1, c2]
      if v ≤ 59 then some v else none
    else none
  | _ => none

/-- `%H:%M` applied to the third captured group (`digits ':' digits`):
the hour is the leading digit run, a `':'` must follow, the minutes are
the remainder. -/
def parseTimeToken (cs : List Char) : Option (Nat × Nat) :=
  match (cs.span isDigitChar).2 with
  | ':' :: m =>
    match parseHourToken (cs.span isDigitChar).1, parseMinuteToken m with
    | some hv, some mv => some (hv, mv)
    | _, _ => none
  | _ => none

/-- Day-of-month validation performed by `strptime` with its default year
1900 (not a leap year). -/
def daysInMonth1900 (m : Nat) : Nat :=
  if m = 2 then 28
  else if m = 4 || m = 6 || m = 9 || m = 11 then 30
  else 31

/-- `datetime.strptime(f"{g1} {g2} at {g3}", '%d %B at %H:%M')` followed by
`.replace(year=year)`: `none` models the `ValueError` caught by the
surrounding `except` clause. -/
def strptimeDayMonthAtTime (year : Nat) (g1 g2 g3 : String) :
    Option PyDateTime :=
  match parseDayToken g1.data, parseMonthName g2, parseTimeToken g3.data with
  | some d, some m, some (h, mi) =>
    if d ≤ daysInMonth1900 m then some ⟨year, m, d, h, mi⟩ else none
  | _, _, _ => none

/-- The date/time parsing step of `_parse_broadcast_item`
(`vet.py` lines 89-103): search the raw date line for the pattern, rebuild
`date_part` from the groups and `strptime` it with the year defaulted to
the current year; any failure (no regex match, or `ValueError` from
`strptime`) leaves the normalized timestamp `None`/absent. -/
def parseDateTimeLine (year : Nat) (s : String) : Option PyDateTime :=
  match searchDatePattern s with
  | none => none
  | some (g1, g2, g3) => strptimeDayMonthAtTime year g1 g2 g3

/-! ## Listing-page documents and `_parse_broadcast_item` (`vet.py` 45-117) -/

/-- Result of `table.find('a', class_='live')` (falling back to
`class_='bottomgray'`): the link's stripped text and its `href`
attribute (`None` when absent). -/
structure LinkTag where
  text : String
  href : Option String
deriving DecidableEq, Repr

/-- One fixture block of the listing page: a
`<table cellpadding="1" cellspacing="2">` element, abstracted to the
outcomes of the four soup queries `_parse_broadcast_item` performs on it.
`evdescParts` is the list `desc_parts` computed from the
`span.evdesc` text (`none` when the span is absent), `imgAlt` the `alt`
of `find('img', alt=True)`, and `hasLiveGif` whether an `img` whose `src`
contains `live.gif` exists. -/
structure ListingTable where
  link : Option LinkTag := none
  evdescParts : Option (List String) := none
  imgAlt : Option String := none
  hasLiveGif : Bool := false
deriving DecidableEq, Repr

/-- One entry of `team_logos` (`vet.py` 198-202 / 293-297). -/
structure TeamLogo where
  team_name : String
  logo_url : String
  style : String
deriving DecidableEq, Repr

/-- One entry of `streams`: the dictionary built by `_parse_stream_table`
(`vet.py` 211-262); `none` fields model absent keys. -/
structure StreamData where
  language : Option String := none
  flag_src : Option String := none
  bitrate : Option String := none
  rating : Option String := none
  rating_color : Option String := none
  stream_url : Option String := none
  stream_title : Option String := none
  stream_type : Option String := none
deriving DecidableEq, Repr

/-- The `fixture_data` dictionary built by `_parse_broadcast_item`, plus
the two enrichment keys `process_fixture_concurrent` may add later.
`none` fields model absent keys; `datetime_obj` models both
`datetime_obj` and its ISO rendering `parsed_datetime`. -/
structure Fixture where
  matchup : String := ""
  event_url : Option String := none
  event_id : Option String := none
  date_time : Option String := none
  competition : Option String := none
  datetime_obj : Option PyDateTime := none
  logo_alt : Option String := none
  is_live : Bool := false
  team_logos : Option (List TeamLogo) := none
  streams : Option (List StreamData) := none
deriving DecidableEq, Repr

/-- Python's `str.startswith`, on the character lists of the strings. -/
def strStartsWith (s pre : String) : Bool :=
  pre.data.isPrefixOf s.data

/-- Python's `str.strip()` (no argument): remove leading and trailing
whitespace. -/
def pyStrip (s : String) : String :=
  String.mk (((s.data.dropWhile isWsChar).reverse.dropWhile isWsChar).reverse)

/-- `re.search(r'/eventinfo/(\d+)', href)` (`vet.py` 65-67): first
occurrence of the literal `/eventinfo/` followed by at least one digit;
the group is the maximal digit run. -/
def eventIdFrom : List Char → Option String
  | [] => none
  | c :: rest =>
    if "/eventinfo/".data.isPrefixOf (c :: rest) then
      let (ds, _) := ((c :: rest).drop 11).span isDigitChar
      if ds.isEmpty then eventIdFrom rest else some (String.mk ds)
    else eventIdFrom rest

/-- `.strip('()')` on the competition line (`vet.py` 86): remove leading
and trailing parenthesis characters. -/
def stripParenChars (s : String) : String :=
  let p := fun c => c = '(' || c = ')'
  String.mk (((s.data.dropWhile p).reverse.dropWhile p).reverse)

/-- `_parse_broadcast_item` (`vet.py` 45-117): build the fixture
dictionary from one listing table, returning `None` when no
`a.live`/`a.bottomgray` link is found.  `year` is `datetime.now().year`,
`base_url` is `self.base_url` (`"https://livetv.sx"`).  The Python code
assigns the dictionary keys one by one; each key's value depends only on
the inputs, so the dictionary is written here as one record, key by key:
`event_url`/`event_id` from the href (identifier extracted only for a
root-relative href), `date_time` from line 0 of the description,
`competition` from line 1 stripped of parentheses, `datetime_obj` from
parsing line 0, `logo_alt` from the first `img` with an `alt`, and
`is_live` from the `live.gif` icon test. -/
def parseBroadcastItem (year : Nat) (base_url : String) (t : ListingTable) :
    Option Fixture :=
  match t.link with
  | none => none
  | some link =>
    some
      { matchup := link.text
        event_url :=
          match link.href with
          | none => none
          | some href =>
            if strStartsWith href "/" then some (base_url ++ href)
            else some href
        event_id :=
          match link.href with
          | none => none
          | some href =>
            if strStartsWith href "/" then eventIdFrom href.data else none
        date_time :=
          match t.evdescParts with
          | some (line0 :: _) => some line0
          | _ => none
        competition :=
          match t.evdescParts with
          | some (_ :: comp :: _) => some (stripParenChars comp)
          | _ => none
        datetime_obj :=
          match t.evdescParts with
          | some (line0 :: _) => parseDateTimeLine year line0
          | _ => none
        logo_alt := t.imgAlt
        is_live := t.hasLiveGif }

/-! ## The "is today" filter and within-page dedup
(`get_fixtures_for_sport`, `vet.py` 119-174) -/

/-- Anchored match of `{day}\s+[A-Za-z]+` at the head of `cs`:
the decimal rendering of `day`, at least one whitespace character, then
at least one ASCII letter. -/
def dayTokenAt (day : Nat) (cs : List Char) : Bool :=
  (toString day).data.isPrefixOf cs &&
    (let r := cs.drop (toString day).data.length
     let (w, r2) := r.span isWsChar
     !w.isEmpty &&
       (match r2 with
        | c :: _ => isAsciiLetter c
        | [] => false))

/-- Auxiliary scan for `re.search(rf'\b{day}\s+[A-Za-z]+', s)`: try each
position, earliest first, requiring the `\b` word boundary (the next
character is a digit, so the boundary holds exactly when the previous
character is missing or a non-word character). -/
def searchDayTokenGo (day : Nat) : Option Char → List Char → Bool
  | _, [] => false
  | prev, c :: rest =>
    ((match prev with
      | none => true
      | some p => !isWordChar p) && dayTokenAt day (c :: rest))
    || searchDayTokenGo day (some c) rest

/-- The substring fallback of the "is today" check (`vet.py` 150-151):
`re.search(rf'^{day}\s+[A-Za-z]+', s) or re.search(rf'\b{day}\s+[A-Za-z]+', s)`. -/
def dayTokenSearch (day : Nat) (s : String) : Bool :=
  dayTokenAt day s.data || searchDayTokenGo day none s.data

/-- The "is today" predicate of `get_fixtures_for_sport`
(`vet.py` 142-152): a truthy `datetime_obj` whose calendar date equals
today's, else a truthy `date_time` raw string containing today's
day-of-month as a token. -/
def isTodayFixture (now : PyDateTime) (fx : Fixture) : Bool :=
  match fx.datetime_obj with
  | some dt => dt.year = now.year && dt.month = now.month && dt.day = now.day
  | none =>
    match fx.date_time with
    | some s => !(s = "") && dayTokenSearch now.day s
    | none => false

/-- The duplicate test of `get_fixtures_for_sport` (`vet.py` 155-159):
some already-kept fixture has the same `event_id` and a non-`None`
`event_id`. -/
def isDupOf (acc : List Fixture) (fx : Fixture) : Bool :=
  acc.any fun f => f.event_id == fx.event_id && !f.event_id.isNone

/-- The dedup accumulation: process the today-fixtures in order, skipping
any whose identifier already occurs among the kept fixtures. -/
def dedupLoop (acc : List Fixture) : List Fixture → List Fixture
  | [] => acc
  | fx :: rest =>
    if isDupOf acc fx then dedupLoop acc rest
    else dedupLoop (acc ++ [fx]) rest

/-- The parsing loop of `get_fixtures_for_sport` (`vet.py` 139-162),
verbatim: parse each table, keep the result when it parses, passes the
"is today" predicate and is not a duplicate of an already-kept fixture. -/
def fixturesLoopGo (now : PyDateTime) (base_url : String)
    (acc : List Fixture) : List ListingTable → List Fixture
  | [] => acc
  | t :: ts =>
    match parseBroadcastItem now.year base_url t with
    | none => fixturesLoopGo now base_url acc ts
    | some fx =>
      if isTodayFixture now fx then
        if isDupOf acc fx then fixturesLoopGo now base_url acc ts
        else fixturesLoopGo now base_url (acc ++ [fx]) ts
      else fixturesLoopGo now base_url acc ts

/-- The pure core of `get_fixtures_for_sport`: today's fixtures extracted
from the fixture tables of one listing-page document. -/
def fixturesFromTables (now : PyDateTime) (base_url : String)
    (ts : List ListingTable) : List Fixture :=
  fixturesLoopGo now base_url [] ts

/-! ## Detail-page documents and the Detail Parser
(`scrape_team_logos`, `_parse_stream_table`, `get_event_details_concurrent`,
`vet.py` 176-321) -/

/-- An `<img>` element, abstracted to the attributes the code reads. -/
structure ImgTag where
  src : String := ""
  alt : String := ""
  style : String := ""
  title : String := ""
deriving DecidableEq, Repr

/-- An `<a>` element inside a stream-table cell. -/
structure ATag where
  href : String := ""
  title : String := ""
deriving DecidableEq, Repr

/-- One `<td>` cell of a stream table, abstracted to the outcomes of the
queries `_parse_stream_table` performs on it. -/
structure Cell where
  img : Option ImgTag := none
  title : String := ""
  link : Option ATag := none
  spanText : Option String := none
  text : String := ""
deriving DecidableEq, Repr

/-- One `<table class="lnktbj">` stream table: its `<td>` cells and the
text/style of the `div` whose id starts with `rali`, when present. -/
structure StreamTable where
  cells : List Cell := []
  rating : Option (String × String) := none
deriving DecidableEq, Repr

/-- An event-detail document, abstracted to the outcomes of the soup
queries of `get_event_details_concurrent`: the
`find_all('img', itemprop='image', alt=True)` results and, when
`div#links_block` exists, its `table.lnktbj` children. -/
structure DetailDoc where
  logoImgs : List ImgTag := []
  linksBlock : Option (List StreamTable) := none
deriving DecidableEq, Repr

/-- `urljoin(self.base_url, url)` for a root-relative `url` and the
configured origin-only base (`"https://livetv.sx"`): concatenation. -/
def urljoinRoot (base url : String) : String :=
  base ++ url

/-- Logo-URL resolution shared by `scrape_team_logos` (190-202) and
`get_event_details_concurrent` (284-297): skip an empty `src`,
prepend `https:` to a protocol-relative URL, resolve a root-relative one
against the base, and record stripped `alt` and `style`. -/
def teamLogoOf (base_url : String) (img : ImgTag) : Option TeamLogo :=
  if img.src = "" then none
  else
    let u := img.src
    let u :=
      if strStartsWith u "//" then "https:" ++ u
      else if strStartsWith u "/" then urljoinRoot base_url u
      else u
    some ⟨pyStrip img.alt, u, img.style⟩

/-- `_parse_stream_table` (`vet.py` 211-262): reject a table with fewer
than 7 cells, otherwise build the stream dictionary from fixed cell
positions; the surrounding `except` never fires because every lookup is
guarded. -/
def parse_stream_table (base_url : String) (t : StreamTable) :
    Option StreamData :=
  if t.cells.length < 7 then none
  else
    let sd : StreamData := {}
    let sd :=
      match (t.cells.getD 0 {}).img with
      | none => sd
      | some flag =>
        let fsrc := flag.src
        let fsrc := if strStartsWith fsrc "//" then "https:" ++ fsrc else fsrc
        { sd with language := some flag.title, flag_src := some fsrc }
    let sd := { sd with bitrate := some (t.cells.getD 1 {}).title }
    let sd :=
      match t.rating with
      | none => sd
      | some (txt, sty) => { sd with rating := some txt, rating_color := some sty }
    let sd :=
      match (t.cells.getD 5 {}).link with
      | none => sd
      | some a =>
        if a.href = "" then sd
        else
          let u := a.href
          let u :=
            if strStartsWith u "//" then "https:" ++ u
            else if strStartsWith u "/" then urljoinRoot base_url u
            else u
          { sd with stream_url := some u, stream_title := some a.title }
    let c6 := t.cells.getD 6 {}
    let sd :=
      match c6.spanText with
      | some sp => { sd with stream_type := some sp }
      | none => { sd with stream_type := some c6.text }
    some sd

/-- The `event_data` dictionary of `get_event_details_concurrent`
(`vet.py` 275-281).  `starting_lineups` and `match_info` are initialized
to empty containers and never populated by any code in the repository. -/
structure EventData where
  event_url : String := ""
  team_logos : List TeamLogo := []
  streams : List StreamData := []
  starting_lineups : List (String × List String) := []
  match_info : List (String × String) := []
deriving DecidableEq, Repr

/-- The document-processing part of `get_event_details_concurrent`
(`vet.py` 273-316).  The inner thread pool over the stream tables is
modelled by the completion order `order` (in the theorems, a permutation
of the table indices): `as_completed` yields each future once finished,
so `future.result(timeout=5)` returns immediately and, because
`_parse_stream_table` catches every exception, no future raises — every
non-`None` parse is appended, in completion order. -/
def event_data_of_doc (base_url event_url : String) (order : List Nat)
    (doc : DetailDoc) : EventData :=
  let logos := doc.logoImgs.filterMap (teamLogoOf base_url)
  let streams :=
    match doc.linksBlock with
    | none => []
    | some tables =>
      (order.filterMap fun i => tables.get? i).filterMap
        (parse_stream_table base_url)
  { event_url := event_url, team_logos := logos, streams := streams }

/-! ## The Enrichment Coordinator
(`process_fixture_concurrent`, `process_all_fixtures_concurrent`,
`vet.py` 323-392) -/

/-- `process_fixture_concurrent` (`vet.py` 323-350): when the fixture has
a truthy `event_url`, fetch its details (`fetchDetails url` is the
outcome of `get_event_details_concurrent`, `none` modelling any network
or parse failure, including a fetch timeout) and copy each enrichment
field onto the fixture only when it is truthy (non-empty); on any
failure return the fixture unchanged. -/
def process_fixture_concurrent (fetchDetails : String → Option EventData)
    (fx : Fixture) : Fixture :=
  match fx.event_url with
  | none => fx
  | some url =>
    if url = "" then fx
    else
      match fetchDetails url with
      | none => fx
      | some d =>
        let fx1 :=
          if d.team_logos.isEmpty then fx
          else { fx with team_logos := some d.team_logos }
        if d.streams.isEmpty then fx1
        else { fx1 with streams := some d.streams }

/-- `process_all_fixtures_concurrent` (`vet.py` 356-392): submit one
`process_fixture_concurrent` task per fixture to the pool and collect the
results in completion order (`order`; a permutation of the indices in the
theorems).  `as_completed` yields only finished futures, so
`future.result(timeout=30)` returns without blocking, and the task body
catches every exception and still returns its fixture, so the
`except: pass` branch (which would drop a result) never runs. -/
def process_all_fixtures_concurrent (fetchDetails : String → Option EventData)
    (order : List Nat) (fixtures : List Fixture) : List Fixture :=
  if fixtures.isEmpty then fixtures
  else
    order.filterMap fun i =>
      (fixtures.get? i).map (process_fixture_concurrent fetchDetails)

/-! ## The Fetch Client: issued requests and their timeouts
(`vet.py` 124, 179, 267) -/

/-- One HTTP GET issued through `self.session.get(url, timeout=...)`. -/
structure HttpReq where
  url : String
  timeout : Nat
deriving DecidableEq, Repr

/-- `get_fixtures_for_sport` (`vet.py` 119-174) as issued requests plus
result: one GET of the listing page with `timeout=15`; a failed fetch
(`RequestException`) yields no fixtures. -/
def get_fixtures_for_sport (http : String → Nat → Option (List ListingTable))
    (now : PyDateTime) (base_url sport_url : String) :
    List HttpReq × List Fixture :=
  (⟨sport_url, 15⟩ :: [],
   match http sport_url 15 with
   | none => []
   | some tables => fixturesFromTables now base_url tables)

/-- `scrape_team_logos` (`vet.py` 176-209) as issued requests plus
result: one GET of the event page with `timeout=10`; a failed fetch
yields the empty logo list. -/
def scrape_team_logos (http : String → Nat → Option DetailDoc)
    (base_url event_url : String) : List HttpReq × List TeamLogo :=
  (⟨event_url, 10⟩ :: [],
   match http event_url 10 with
   | none => []
   | some doc => doc.logoImgs.filterMap (teamLogoOf base_url))

/-- `get_event_details_concurrent` (`vet.py` 264-321) as issued requests
plus result: one GET of the event page with `timeout=15`; a failed fetch
returns `None`. -/
def get_event_details_concurrent (http : String → Nat → Option DetailDoc)
    (base_url : String) (order : List Nat) (event_url : String) :
    List HttpReq × Option EventData :=
  (⟨event_url, 15⟩ :: [],
   (http event_url 15).map (event_data_of_doc base_url event_url order))

/-! ## The API/CLI variant (`api.py`, `dut.py`): broadcast dictionaries,
categorization, enhancement, persistence and the run guard -/

/-- The broadcast dictionary built by `_parse_broadcast_item` of
`api.py`/`dut.py` (lines 104-191 / 50-137), plus the keys
`enhance_fixture_data` may add.  `none` fields model absent keys (and,
for `stream_url` in the fallback data, a stored `None` — the code only
reads these through `.get`/truthiness, which conflates the two). -/
structure BFixture where
  logo_url : Option String := none
  fixture : Option String := none
  matchup : Option String := none
  team_home : Option String := none
  team_away : Option String := none
  datetime : Option String := none
  is_live : Option Bool := none
  sport : Option String := none
  league : Option String := none
  time : Option String := none
  stream_url : Option String := none
  venue : Option String := none
  status : Option String := none
  broadcast : Option String := none
deriving DecidableEq, Repr

/-- The stream test of `categorize_fixtures` (`api.py` 200 / `dut.py`
146): `fixture.get('stream_url') and fixture['stream_url'] not in
['', '#', 'N/A']` — a present, truthy URL that is none of the three
placeholder values. -/
def hasValidStreamUrl (f : BFixture) : Bool :=
  match f.stream_url with
  | none => false
  | some s => !(s = "") && !(s = "#") && !(s = "N/A")

/-- `categorize_fixtures` (`api.py` 193-207 / `dut.py` 139-153),
verbatim: one pass over the broadcasts, appending each to the live list
when it has a valid stream URL and to the upcoming list otherwise. -/
def categorize_fixtures (broadcasts : List BFixture) :
    List BFixture × List BFixture :=
  broadcasts.foldl
    (fun acc f =>
      if hasValidStreamUrl f then (acc.1 ++ [f], acc.2)
      else (acc.1, acc.2 ++ [f]))
    ([], [])

/-- `enhance_fixture_data` (`api.py` 209-228 / `dut.py` 155-174). -/
def enhance_fixture_data (f : BFixture) : BFixture :=
  let e := f
  let e :=
    match e.fixture with
    | some _ => e
    | none => { e with fixture := some (e.matchup.getD "Unknown Match") }
  let e :=
    match e.league with
    | some _ => e
    | none => { e with league := some (e.sport.getD "Unknown League") }
  let e :=
    match e.time with
    | some _ => e
    | none => { e with time := some (e.datetime.getD "TBD") }
  let e := { e with venue := some (e.venue.getD "TBD") }
  let e :=
    { e with status := some (if e.is_live = some true then "Live" else "Scheduled") }
  { e with
    broadcast := some (match e.stream_url with
      | some s => if s = "" then "No Stream Available" else "LiveSports808"
      | none => "No Stream Available") }

/-- `get_fallback_data` (`api.py` 235-307): the hard-coded sample data
used when scraping fails. -/
def get_fallback_data : List BFixture × List BFixture :=
  ([{ fixture := some "Manchester United vs Liverpool",
      team_home := some "Manchester United", team_away := some "Liverpool",
      league := some "Premier League", time := some "15:00",
      stream_url := some "https://m.livetv.sx/enx/event/123456/",
      status := some "Live", broadcast := some "LiveSports808",
      venue := some "Old Trafford",
      logo_url := some "https://via.placeholder.com/60/0f3460/ffffff?text=PREM" },
    { fixture := some "Barcelona vs Real Madrid",
      team_home := some "Barcelona", team_away := some "Real Madrid",
      league := some "LaLiga", time := some "20:00",
      stream_url := some "https://m.livetv.sx/enx/event/123457/",
      status := some "Live", broadcast := some "LiveSports808",
      venue := some "Camp Nou",
      logo_url := some "https://via.placeholder.com/60/0f3460/ffffff?text=LL" }],
   [{ fixture := some "Bayern Munich vs Borussia Dortmund",
      team_home := some "Bayern Munich", team_away := some "Borussia Dortmund",
      league := some "Bundesliga", time := some "17:30", stream_url := none,
      status := some "Scheduled", broadcast := some "No Stream Available",
      venue := some "Allianz Arena",
      logo_url := some "https://via.placeholder.com/60/0f3460/ffffff?text=BUN" },
    { fixture := some "PSG vs Marseille",
      team_home := some "PSG", team_away := some "Marseille",
      league := some "Ligue 1", time := some "19:45", stream_url := none,
      status := some "Scheduled", broadcast := some "No Stream Available",
      venue := some "Parc des Princes",
      logo_url := some "https://via.placeholder.com/60/0f3460/ffffff?text=L1" },
    { fixture := some "Juventus vs AC Milan",
      team_home := some "Juventus", team_away := some "AC Milan",
      league := some "Serie A", time := some "20:45", stream_url := none,
      status := some "Scheduled", broadcast := some "No Stream Available",
      venue := some "Allianz Stadium",
      logo_url := some "https://via.placeholder.com/60/0f3460/ffffff?text=SA" }])

/-! ## Persistence: `save_to_json` as file-system effects
(`api.py` 372-380; `dut.py` 176-180 performs the same
`open(..., 'w')` + `json.dump`) -/

/-- A primitive file-system effect of the write path:
`open(path, 'w')` truncates the file, the subsequent `json.dump` writes
the serialized content. -/
inductive FSStep where
  | openTrunc : String → FSStep
  | writeAll : String → String → FSStep
deriving DecidableEq, Repr

/-- The path a step affects. -/
def FSStep.path : FSStep → String
  | .openTrunc p => p
  | .writeAll p _ => p

/-- File content at `path` after one step, given the content before it
(`none` models a missing file). -/
def applyFSStep (step : FSStep) (path : String) (content : Option String) :
    Option String :=
  match step with
  | .openTrunc p => if p = path then some "" else content
  | .writeAll p c => if p = path then some c else content

/-- File content at `path` after a whole step sequence. -/
def contentAfter (steps : List FSStep) (path : String)
    (init : Option String) : Option String :=
  steps.foldl (fun c step => applyFSStep step path c) init

/-- Every content of `path` observable while the step sequence runs:
before the first step, after each step. -/
def observableContents (path : String) (init : Option String) :
    List FSStep → List (Option String)
  | [] => [init]
  | step :: rest =>
    init :: observableContents path (applyFSStep step path init) rest

/-- `save_to_json(data, filename)` (`api.py` 372-380): build the path
`os.path.join(os.getcwd(), filename)`, open it for writing (truncating
it) and dump the serialization of `data` into it.  `dump` abstracts
`json.dump` with `indent=2, ensure_ascii=False`.  No temporary file,
no `fsync`, no rename. -/
def save_to_json (dump : α → String) (cwd filename : String) (data : α) :
    List FSStep :=
  [FSStep.openTrunc (cwd ++ "/" ++ filename),
   FSStep.writeAll (cwd ++ "/" ++ filename) (dump data)]

/-- The global `scraped_data` dictionary of `api.py` (lines 31-38). -/
structure ScrapedData where
  live_fixtures : List BFixture := []
  upcoming_fixtures : List BFixture := []
  last_scrape_time : Option String := none
  is_scraping : Bool := false
  last_successful_scrape : Option String := none
  using_fallback_data : Bool := false
deriving DecidableEq, Repr

/-- `use_fallback_data` (`api.py` 358-370): install the fallback data,
stamp the scrape time, flag the fallback, and write both files. -/
def use_fallback_data (dump : List BFixture → String) (cwd nowIso : String)
    (st : ScrapedData) : ScrapedData × List FSStep :=
  let (live, upcoming) := get_fallback_data
  ({ st with live_fixtures := live, upcoming_fixtures := upcoming,
             last_scrape_time := some nowIso, using_fallback_data := true },
   save_to_json dump cwd "live.json" live ++
     save_to_json dump cwd "upcoming.json" upcoming)

/-- `perform_scraping` (`api.py` 312-356).  `broadcasts` is the outcome
of `scraper.scrape_broadcasts(url)` (which returns `[]` on any fetch or
parse error); `nowIso` is `datetime.now().isoformat()`.  Returns the
updated global state and the file-system effects.  If the in-progress
flag is set the call logs and returns at once, touching nothing. -/
def perform_scraping (dump : List BFixture → String) (cwd nowIso : String)
    (broadcasts : List BFixture) (st : ScrapedData) :
    ScrapedData × List FSStep :=
  if st.is_scraping then (st, [])
  else
    let st := { st with is_scraping := true }
    let (st, writes) :=
      if broadcasts.isEmpty then
        use_fallback_data dump cwd nowIso st
      else
        let (live, upcoming) := categorize_fixtures broadcasts
        let enhanced_live := live.map enhance_fixture_data
        let enhanced_upcoming := upcoming.map enhance_fixture_data
        ({ st with live_fixtures := enhanced_live,
                   upcoming_fixtures := enhanced_upcoming,
                   last_scrape_time := some nowIso,
                   last_successful_scrape := some nowIso,
                   using_fallback_data := false },
         save_to_json dump cwd "live.json" enhanced_live ++
           save_to_json dump cwd "upcoming.json" enhanced_upcoming)
    ({ st with is_scraping := false }, writes)

/-! ## Helper lemmas -/

/-- The categorization fold appends the matching/non-matching elements to
the two accumulators in order. -/
theorem categorize_foldl_eq (bs : List BFixture) (l u : List BFixture) :
    bs.foldl
      (fun acc f =>
        if hasValidStreamUrl f then (acc.1 ++ [f], acc.2)
        else (acc.1, acc.2 ++ [f]))
      (l, u) =
      (l ++ bs.filter hasValidStreamUrl,
       u ++ bs.filter fun f => !hasValidStreamUrl f) := by
  induction bs generalizing l u with
  | nil => simp
  | cons f rest ih =>
    by_cases h : hasValidStreamUrl f = true
    · simp [List.filter_cons, h, ih]
    · simp only [Bool.not_eq_true] at h
      simp [List.filter_cons, h, ih]

/-- `categorize_fixtures` computes the two filters of its input. -/
theorem categorize_fixtures_eq (bs : List BFixture) :
    categorize_fixtures bs =
      (bs.filter hasValidStreamUrl, bs.filter fun f => !hasValidStreamUrl f) := by
  simpa using categorize_foldl_eq bs [] []

/-- The present identifiers of a fixture list, in order. -/
def fixtureIds (l : List Fixture) : List String :=
  l.filterMap (·.event_id)

/-- The duplicate test succeeds exactly when the candidate has a present
identifier already among the kept fixtures' identifiers. -/
theorem isDupOf_eq_true_iff (acc : List Fixture) (fx : Fixture) :
    isDupOf acc fx = true ↔
      ∃ x, fx.event_id = some x ∧ x ∈ fixtureIds acc := by
  simp only [isDupOf, List.any_eq_true, Bool.and_eq_true, beq_iff_eq,
    Bool.not_eq_true', Option.isNone_eq_false_iff, Option.isSome_iff_exists,
    fixtureIds, List.mem_filterMap]
  constructor
  · rintro ⟨f, hf, hid, x, hx⟩
    exact ⟨x, by rw [← hid, hx], f, hf, hx⟩
  · rintro ⟨x, hfx, f, hf, hx⟩
    exact ⟨f, hf, by rw [hx, hfx], x, hx⟩

/-- Identifiers of an appended list. -/
theorem fixtureIds_append (l₁ l₂ : List Fixture) :
    fixtureIds (l₁ ++ l₂) = fixtureIds l₁ ++ fixtureIds l₂ :=
  List.filterMap_append _ _ _

/-- The dedup loop preserves distinctness of the kept identifiers. -/
theorem dedupLoop_ids_nodup :
    ∀ (rest acc : List Fixture), (fixtureIds acc).Nodup →
      (fixtureIds (dedupLoop acc rest)).Nodup := by
  intro rest
  induction rest with
  | nil => intro acc h; exact h
  | cons fx rest ih =>
    intro acc h
    rw [dedupLoop]
    by_cases hdup : isDupOf acc fx = true
    · rw [if_pos hdup]; exact ih acc h
    · rw [if_neg hdup]
      refine ih (acc ++ [fx]) ?_
      rw [fixtureIds_append]
      cases hid : fx.event_id with
      | none => simpa [fixtureIds, hid] using h
      | some x =>
        have hx : x ∉ fixtureIds acc := fun hmem =>
          hdup ((isDupOf_eq_true_iff acc fx).mpr ⟨x, hid, hmem⟩)
        simp only [fixtureIds, hid, List.filterMap_cons, List.filterMap_nil,
          List.nodup_append, List.nodup_singleton, true_and,
          List.mem_singleton, List.Disjoint]
        refine ⟨h, ?_⟩
        intro a ha hax
        have hax' : a = x := by simpa using hax
        subst hax'
        exact hx ha

/-- First occurrence wins: looking up any identifier in the dedup loop's
output finds the same fixture as looking it up in the kept-so-far list
followed by the unprocessed input. -/
theorem dedupLoop_find? (x : String) :
    ∀ (rest acc : List Fixture),
      (dedupLoop acc rest).find? (fun f => f.event_id == some x) =
        (acc ++ rest).find? (fun f => f.event_id == some x) := by
  intro rest
  induction rest with
  | nil => intro acc; simp [dedupLoop]
  | cons fx rest ih =>
    intro acc
    rw [dedupLoop]
    by_cases hdup : isDupOf acc fx = true
    · rw [if_pos hdup, ih acc, List.find?_append, List.find?_append]
      cases hacc : acc.find? (fun f => f.event_id == some x) with
      | some f => rfl
      | none =>
        have hfx : (fun f => f.event_id == some x) fx = false := by
          by_contra hc
          simp only [Bool.not_eq_false, beq_iff_eq] at hc
          obtain ⟨y, hy, hmem⟩ := (isDupOf_eq_true_iff acc fx).mp hdup
          rw [hc] at hy
          obtain ⟨g, hg, hgid⟩ := by
            simpa [fixtureIds, List.mem_filterMap] using hmem
          have := List.find?_eq_none.mp hacc g hg
          simp [hgid, ← Option.some.injEq x y, hy] at this
        simp [List.find?_cons, hfx]
    · rw [if_neg hdup, ih (acc ++ [fx])]
      simp

/-- Every fixture the dedup loop returns comes from the kept-so-far list
or the input. -/
theorem dedupLoop_mem :
    ∀ (rest acc : List Fixture) (f : Fixture),
      f ∈ dedupLoop acc rest → f ∈ acc ∨ f ∈ rest := by
  intro rest
  induction rest with
  | nil => intro acc f hf; exact Or.inl hf
  | cons fx rest ih =>
    intro acc f hf
    rw [dedupLoop] at hf
    by_cases hdup : isDupOf acc fx = true
    · rw [if_pos hdup] at hf
      rcases ih acc f hf with h | h
      · exact Or.inl h
      · exact Or.inr (List.mem_cons_of_mem _ h)
    · rw [if_neg hdup] at hf
      rcases ih (acc ++ [fx]) f hf with h | h
      · rcases List.mem_append.mp h with h | h
        · exact Or.inl h
        · simp only [List.mem_singleton] at h
          exact Or.inr (h ▸ List.mem_cons_self fx rest)
      · exact Or.inr (List.mem_cons_of_mem _ h)

/-- With pairwise-distinct present identifiers the dedup loop keeps
everything. -/
theorem dedupLoop_eq_of_nodup :
    ∀ (rest acc : List Fixture), (fixtureIds (acc ++ rest)).Nodup →
      dedupLoop acc rest = acc ++ rest := by
  intro rest
  induction rest with
  | nil => intro acc _; simp [dedupLoop]
  | cons fx rest ih =>
    intro acc h
    rw [dedupLoop]
    have hdup : isDupOf acc fx = false := by
      by_contra hc
      simp only [Bool.not_eq_false] at hc
      obtain ⟨x, hid, hmem⟩ := (isDupOf_eq_true_iff acc fx).mp hc
      rw [fixtureIds_append] at h
      have hx' : x ∈ fixtureIds (fx :: rest) := by
        simp [fixtureIds, List.filterMap_cons, hid]
      exact ((List.nodup_append.mp h).2.2) hmem hx'
    rw [hdup]
    simp only [Bool.false_eq_true, if_false]
    rw [ih (acc ++ [fx]) (by simpa using h)]
    simp

/-- The single scan of `get_fixtures_for_sport` factors into parsing,
the "is today" filter and the dedup loop. -/
theorem fixturesLoopGo_eq (now : PyDateTime) (base_url : String) :
    ∀ (ts : List ListingTable) (acc : List Fixture),
      fixturesLoopGo now base_url acc ts =
        dedupLoop acc
          ((ts.filterMap (parseBroadcastItem now.year base_url)).filter
            (isTodayFixture now)) := by
  intro ts
  induction ts with
  | nil => intro acc; simp [fixturesLoopGo, dedupLoop]
  | cons t ts ih =>
    intro acc
    rw [fixturesLoopGo]
    cases hp : parseBroadcastItem now.year base_url t with
    | none => simp [List.filterMap_cons, hp, ih]
    | some fx =>
      by_cases htoday : isTodayFixture now fx = true
      · simp only [List.filterMap_cons, hp, List.filter_cons, htoday, if_true]
        rw [dedupLoop]
        by_cases hdup : isDupOf acc fx = true
        · simp [htoday, hdup, ih]
        · simp [htoday, hdup, ih]
      · simp only [Bool.not_eq_true] at htoday
        simp [List.filterMap_cons, hp, List.filter_cons, htoday, ih]

/-- A digit character's code point is between 48 and 57. -/
theorem toNat_bounds_of_isDigitChar (c : Char) (h : isDigitChar c = true) :
    48 ≤ c.toNat ∧ c.toNat ≤ 57 := by
  simp only [isDigitChar, Bool.and_eq_true, decide_eq_true_eq] at h
  constructor
  · have := Char.le_def.mp h.1
    simpa [Char.toNat] using this
  · have := Char.le_def.mp h.2
    simpa [Char.toNat] using this

/-- The value of a single digit. -/
theorem natOfDigits_single (c : Char) : natOfDigits [c] = c.toNat - 48 := by
  simp [natOfDigits]

/-- A single digit's value is at most 9. -/
theorem natOfDigits_single_le (c : Char) (h : isDigitChar c = true) :
    natOfDigits [c] ≤ 9 := by
  obtain ⟨h1, h2⟩ := toNat_bounds_of_isDigitChar c h
  rw [natOfDigits_single]
  omega

/-- A nonzero single digit's value is at least 1. -/
theorem natOfDigits_single_pos (c : Char) (h : isDigitChar c = true)
    (hne : ¬ c = '0') : 1 ≤ natOfDigits [c] := by
  obtain ⟨h1, _⟩ := toNat_bounds_of_isDigitChar c h
  simp only [isDigitChar, Bool.and_eq_true, decide_eq_true_eq] at h
  have hlt : '0' < c := lt_of_le_of_ne h.1 (fun he => hne he.symm)
  have : (48 : Nat) < c.toNat := by
    have := Char.lt_def.mp hlt
    simpa [Char.toNat] using this
  rw [natOfDigits_single]
  omega

/-- Range of a parsed day-of-month token. -/
theorem parseDayToken_range (cs : List Char) (d : Nat)
    (h : parseDayToken cs = some d) : 1 ≤ d ∧ d ≤ 31 := by
  unfold parseDayToken at h
  split at h
  case isTrue hall =>
    split at h
    next c =>
      split at h
      · exact absurd h (by simp)
      next hc =>
        have hd : isDigitChar c = true := by simpa using hall
        have h1 := natOfDigits_single_pos c hd hc
        have h2 := natOfDigits_single_le c hd
        cases h
        omega
    next c1 c2 =>
      simp only at h
      split at h
      next hv =>
        simp only [Bool.and_eq_true, decide_eq_true_eq] at hv
        cases h
        exact hv
      · exact absurd h (by simp)
    · exact absurd h (by simp)
  case isFalse => exact absurd h (by simp)

/-- A successful `monthIdx` lookup gives an index within the name list. -/
theorem monthIdx_range :
    ∀ (l : List (List Char)) (k : Nat) (g : List Char) (m : Nat),
      monthIdx l k g = some m → k ≤ m ∧ m < k + l.length := by
  intro l
  induction l with
  | nil => intro k g m h; exact absurd h (by simp [monthIdx])
  | cons nm rest ih =>
    intro k g m h
    rw [monthIdx] at h
    by_cases hm : ciMatch nm g = true
    · rw [if_pos hm] at h
      cases h
      simp
    · rw [if_neg hm] at h
      have := ih (k + 1) g m h
      constructor
      · omega
      · simpa [Nat.add_comm, Nat.add_left_comm] using this.2

/-- Range of a parsed month name. -/
theorem parseMonthName_range (g : String) (m : Nat)
    (h : parseMonthName g = some m) : 1 ≤ m ∧ m ≤ 12 := by
  have := monthIdx_range monthNamesLower 1 g.data m h
  have hlen : monthNamesLower.length = 12 := by rfl
  omega

/-- Range of a parsed hour token. -/
theorem parseHourToken_range (cs : List Char) (v : Nat)
    (h : parseHourToken cs = some v) : v ≤ 23 := by
  unfold parseHourToken at h
  split at h
  next c =>
    split at h
    next hc =>
      cases h
      have := natOfDigits_single_le c hc
      omega
    · exact absurd h (by simp)
  next c1 c2 =>
    simp only at h
    split at h
    · split at h
      next hv => cases h; exact hv
      · exact absurd h (by simp)
    · exact absurd h (by simp)
  · exact absurd h (by simp)

/-- Range of a parsed minute token. -/
theorem parseMinuteToken_range (cs : List Char) (v : Nat)
    (h : parseMinuteToken cs = some v) : v ≤ 59 := by
  unfold parseMinuteToken at h
  split at h
  next c =>
    split at h
    next hc =>
      cases h
      have := natOfDigits_single_le c hc
      omega
    · exact absurd h (by simp)
  next c1 c2 =>
    simp only at h
    split at h
    · split at h
      next hv => cases h; exact hv
      · exact absurd h (by simp)
    · exact absurd h (by simp)
  · exact absurd h (by simp)

/-- Range of a parsed `%H:%M` token. -/
theorem parseTimeToken_range (cs : List Char) (hv mv : Nat)
    (h : parseTimeToken cs = some (hv, mv)) : hv ≤ 23 ∧ mv ≤ 59 := by
  unfold parseTimeToken at h
  split at h
  next m heq =>
    split at h
    next a b hh hm =>
      simp only [Option.some.injEq, Prod.mk.injEq] at h
      obtain ⟨rfl, rfl⟩ := h
      exact ⟨parseHourToken_range _ a hh, parseMinuteToken_range m b hm⟩
    · exact absurd h (by simp)
  · exact absurd h (by simp)

/-- Every timestamp `parseDateTimeLine` produces has the supplied year
and in-range month, day (validated against the 1900 calendar), hour and
minute. -/
theorem parseDateTimeLine_range (year : Nat) (line : String)
    (dt : PyDateTime) (h : parseDateTimeLine year line = some dt) :
    dt.year = year ∧ 1 ≤ dt.month ∧ dt.month ≤ 12 ∧ 1 ≤ dt.day ∧
    dt.day ≤ daysInMonth1900 dt.month ∧ dt.hour ≤ 23 ∧ dt.minute ≤ 59 := by
  unfold parseDateTimeLine at h
  cases hs : searchDatePattern line with
  | none => rw [hs] at h; exact absurd h (by simp)
  | some g =>
    rw [hs] at h
    obtain ⟨g1, g2, g3⟩ := g
    simp only at h
    unfold strptimeDayMonthAtTime at h
    cases hd : parseDayToken g1.data with
    | none => rw [hd] at h; exact absurd h (by simp)
    | some d =>
      cases hm : parseMonthName g2 with
      | none => rw [hd, hm] at h; exact absurd h (by simp)
      | some m =>
        cases ht : parseTimeToken g3.data with
        | none => rw [hd, hm, ht] at h; exact absurd h (by simp)
        | some hmi =>
          obtain ⟨hv, mv⟩ := hmi
          rw [hd, hm, ht] at h
          simp only at h
          by_cases hday : d ≤ daysInMonth1900 m
          · rw [if_pos hday] at h
            cases h
            obtain ⟨hd1, _⟩ := parseDayToken_range g1.data d hd
            obtain ⟨hm1, hm2⟩ := parseMonthName_range g2 m hm
            obtain ⟨hh, hmin⟩ := parseTimeToken_range g3.data hv mv ht
            exact ⟨rfl, hm1, hm2, hd1, hday, hh, hmin⟩
          · rw [if_neg hday] at h; exact absurd h (by simp)

/-! ## Claim theorems -/

/-- C3: in the schedule parser's output every present identifier occurs
in at most one stub, and looking any identifier up finds exactly the
fixture its first occurrence in the parsed-and-today-filtered listing
would give — first occurrence wins, so two listing rows sharing a detail
URL (hence an identifier) collapse to one record. -/
theorem fixtures_identifier_unique (now : PyDateTime) (base_url : String)
    (ts : List ListingTable) :
    (fixtureIds (fixturesFromTables now base_url ts)).Nodup ∧
    ∀ x : String,
      (fixturesFromTables now base_url ts).find?
          (fun f => f.event_id == some x) =
        ((ts.filterMap (parseBroadcastItem now.year base_url)).filter
            (isTodayFixture now)).find? (fun f => f.event_id == some x) := by
  constructor
  · rw [fixturesFromTables, fixturesLoopGo_eq]
    exact dedupLoop_ids_nodup _ [] (by simp [fixtureIds])
  · intro x
    rw [fixturesFromTables, fixturesLoopGo_eq, dedupLoop_find? x _ []]
    simp

/-- C5: every stub the schedule parser outputs satisfies the "is today"
predicate (a stub failing it never appears), and when the
predicate-passing stubs carry pairwise-distinct identifiers the output is
exactly the predicate-passing parse results. -/
theorem fixtures_today_only (now : PyDateTime) (base_url : String)
    (ts : List ListingTable) :
    (∀ fx ∈ fixturesFromTables now base_url ts,
      isTodayFixture now fx = true) ∧
    ((fixtureIds ((ts.filterMap (parseBroadcastItem now.year base_url)).filter
          (isTodayFixture now))).Nodup →
      fixturesFromTables now base_url ts =
        (ts.filterMap (parseBroadcastItem now.year base_url)).filter
          (isTodayFixture now)) := by
  constructor
  · intro fx hfx
    rw [fixturesFromTables, fixturesLoopGo_eq] at hfx
    rcases dedupLoop_mem _ [] fx hfx with h | h
    · simp at h
    · exact List.of_mem_filter h
  · intro hnodup
    rw [fixturesFromTables, fixturesLoopGo_eq,
      dedupLoop_eq_of_nodup _ [] (by simpa using hnodup)]
    simp

/-! Concrete scenario inputs shared by the witnesses: a listing page with
three fixture blocks, two timestamped on the current day (2025-06-12) and
one timestamped on the following day. -/

/-- The current instant used in the witnesses. -/
def wNow : PyDateTime := ⟨2025, 6, 12, 0, 0⟩

/-- The scraper's base URL. -/
def wBase : String := "https://livetv.sx"

/-- First fixture block: today, identifier 111. -/
def wTableA : ListingTable :=
  { link := some ⟨"Alpha – Beta", some "/eventinfo/111/alpha-beta/"⟩,
    evdescParts := some ["12 June at 18:30", "(Cup)"] }

/-- Second fixture block: today, identifier 222, live icon shown. -/
def wTableB : ListingTable :=
  { link := some ⟨"Gamma – Delta", some "/eventinfo/222/gd/"⟩,
    evdescParts := some ["12 June at 20:00", "(League)"],
    hasLiveGif := true }

/-- Third fixture block: tomorrow, identifier 333. -/
def wTableC : ListingTable :=
  { link := some ⟨"Eps – Zeta", some "/eventinfo/333/ez/"⟩,
    evdescParts := some ["13 June at 18:30", "(Cup)"] }

/-- The parse result of the first witness table (today, 18:30). -/
def wFxParsedA : Fixture :=
  { matchup := "Alpha – Beta",
    event_url := some "https://livetv.sx/eventinfo/111/alpha-beta/",
    event_id := some "111",
    date_time := some "12 June at 18:30",
    competition := some "Cup",
    datetime_obj := some ⟨2025, 6, 12, 18, 30⟩ }

/-- C5 (witness): on the three-block listing page the parser output is
exactly the two today fixtures. -/
theorem fixtures_today_only_witness :
    fixturesFromTables wNow wBase [wTableA, wTableB, wTableC] =
      ([wTableA, wTableB, wTableC].filterMap
          (parseBroadcastItem wNow.year wBase)).filter (isTodayFixture wNow) ∧
    (([wTableA, wTableB, wTableC].filterMap
        (parseBroadcastItem wNow.year wBase)).filter
      (isTodayFixture wNow)).length = 2 ∧
    isTodayFixture wNow wFxParsedA = true :=
  ⟨(fixtures_today_only wNow wBase [wTableA, wTableB, wTableC]).2 (by decide),
   by decide,
   (fixtures_today_only wNow wBase [wTableA, wTableB, wTableC]).1 wFxParsedA
     (by decide)⟩

/-- A `filterMap` whose function is `some` on every element preserves the
length. -/
theorem length_filterMap_of_isSome (f : α → Option β) :
    ∀ l : List α, (∀ a ∈ l, (f a).isSome) →
      (l.filterMap f).length = l.length := by
  intro l
  induction l with
  | nil => simp
  | cons a l ih =>
    intro h
    cases hfa : f a with
    | none =>
      have := h a (List.mem_cons_self a l)
      simp [hfa] at this
    | some b =>
      simp only [List.filterMap_cons, hfa, List.length_cons]
      rw [ih fun x hx => h x (List.mem_cons_of_mem a hx)]

/-- C2: the enrichment coordinator never drops a stub.  For any
completion order of the worker pool, the output has one entry per input
fixture, the processed version of every input fixture appears in the
output, and a fixture all of whose detail fetches fail (network error,
parse exception or timeout: `fetchDetails` returns `none`) is returned
unchanged — the run does not fail and the stub keeps its (empty default)
enrichment fields. -/
theorem process_all_preserves_stubs (fetchDetails : String → Option EventData)
    (order : List Nat) (fixtures : List Fixture)
    (hperm : order.Perm (List.range fixtures.length)) :
    (process_all_fixtures_concurrent fetchDetails order fixtures).length =
      fixtures.length ∧
    (∀ i (hi : i < fixtures.length),
      process_fixture_concurrent fetchDetails (fixtures.get ⟨i, hi⟩) ∈
        process_all_fixtures_concurrent fetchDetails order fixtures) ∧
    (∀ fx : Fixture,
      (∀ u, fx.event_url = some u → ¬ u = "" → fetchDetails u = none) →
      process_fixture_concurrent fetchDetails fx = fx) := by
  refine ⟨?_, ?_, ?_⟩
  · unfold process_all_fixtures_concurrent
    by_cases hemp : fixtures.isEmpty
    · rw [if_pos hemp]
    · rw [if_neg hemp]
      have hall : ∀ i ∈ order,
          ((fixtures.get? i).map
            (process_fixture_concurrent fetchDetails)).isSome := by
        intro i hi
        have hmem : i ∈ List.range fixtures.length := hperm.mem_iff.mp hi
        have hi' : i < fixtures.length := List.mem_range.mp hmem
        simp [List.getElem?_eq_getElem hi']
      rw [length_filterMap_of_isSome _ order hall]
      simpa using hperm.length_eq
  · intro i hi
    unfold process_all_fixtures_concurrent
    have hne : ¬ fixtures.isEmpty = true := by
      intro h
      rw [List.isEmpty_iff] at h
      subst h
      simp at hi
    rw [if_neg hne]
    refine List.mem_filterMap.mpr ⟨i, ?_, ?_⟩
    · exact hperm.mem_iff.mpr (List.mem_range.mpr hi)
    · rw [List.get?_eq_get hi]
      rfl
  · intro fx hfail
    cases hurl : fx.event_url with
    | none => simp [process_fixture_concurrent, hurl]
    | some u =>
      by_cases hu : u = ""
      · simp [process_fixture_concurrent, hurl, hu]
      · simp [process_fixture_concurrent, hurl, hu, hfail u hurl hu]

/-- The detail-fetch outcome used in the C2 witness: only fixture 111's
page is reachable; the other fetch times out (`none`). -/
def wFetch : String → Option EventData :=
  fun u =>
    if u = "https://livetv.sx/eventinfo/111/alpha-beta/" then
      some { event_url := u,
             team_logos := [⟨"Alpha", "https://livetv.sx/img/a.png", ""⟩] }
    else none

/-- Today-stub 111 (reachable detail page) for the C2 witness. -/
def wFxA : Fixture :=
  { matchup := "Alpha – Beta",
    event_url := some "https://livetv.sx/eventinfo/111/alpha-beta/",
    event_id := some "111" }

/-- Today-stub 222 (detail fetch times out) for the C2 witness. -/
def wFxB : Fixture :=
  { matchup := "Gamma – Delta",
    event_url := some "https://livetv.sx/eventinfo/222/gd/",
    event_id := some "222" }

/-- C2 (witness): two today-stubs, one detail fetch timing out — the
final count is still 2 and the affected stub is returned unchanged, its
enrichment fields still at their empty defaults. -/
theorem process_all_preserves_stubs_witness :
    (process_all_fixtures_concurrent wFetch [1, 0] [wFxA, wFxB]).length = 2 ∧
    process_fixture_concurrent wFetch wFxB = wFxB ∧
    wFxB ∈ process_all_fixtures_concurrent wFetch [1, 0] [wFxA, wFxB] := by
  have h := process_all_preserves_stubs wFetch [1, 0] [wFxA, wFxB] (by decide)
  have hB : process_fixture_concurrent wFetch wFxB = wFxB := by
    refine h.2.2 wFxB ?_
    intro u hu hne
    have hu' : u = "https://livetv.sx/eventinfo/222/gd/" := by
      simpa [wFxB] using hu.symm
    subst hu'
    decide
  have hmem := h.2.1 1 (by decide)
  exact ⟨h.1, hB, hB ▸ hmem⟩

/-- C4: for every parsed fixture, the normalized timestamp is exactly the
result of parsing line 0 of the description against
`<day> <month-name> at <HH:MM>` — absent/`None` whenever the pattern does
not match or `strptime` fails, and on success a timestamp whose year is
defaulted to the current year with in-range month, day, hour, minute. -/
theorem parse_datetime_line_spec (year : Nat) (base_url : String)
    (t : ListingTable) (fx : Fixture)
    (hp : parseBroadcastItem year base_url t = some fx) :
    fx.datetime_obj =
      ((t.evdescParts.getD []).head?.bind fun line =>
        parseDateTimeLine year line) ∧
    (∀ line, searchDatePattern line = none →
      parseDateTimeLine year line = none) ∧
    (∀ dt, fx.datetime_obj = some dt →
      dt.year = year ∧ 1 ≤ dt.month ∧ dt.month ≤ 12 ∧ 1 ≤ dt.day ∧
      dt.day ≤ daysInMonth1900 dt.month ∧ dt.hour ≤ 23 ∧ dt.minute ≤ 59) := by
  have hdt : fx.datetime_obj =
      ((t.evdescParts.getD []).head?.bind fun line =>
        parseDateTimeLine year line) := by
    unfold parseBroadcastItem at hp
    cases hlink : t.link with
    | none => rw [hlink] at hp; exact absurd hp (by simp)
    | some link =>
      rw [hlink] at hp
      simp only [Option.some.injEq] at hp
      subst hp
      cases hev : t.evdescParts with
      | none => simp [hev]
      | some parts =>
        cases parts with
        | nil => simp [hev]
        | cons line0 rest => simp [hev]
  refine ⟨hdt, ?_, ?_⟩
  · intro line hnone
    unfold parseDateTimeLine
    rw [hnone]
  · intro dt hsome
    rw [hdt] at hsome
    cases hev : (t.evdescParts.getD []).head? with
    | none => rw [hev] at hsome; exact absurd hsome (by simp)
    | some line =>
      rw [hev] at hsome
      exact parseDateTimeLine_range year line dt (by simpa using hsome)

/-- C4 (witness): the date parsing contract at the concrete first witness
table, whose line 0 `"12 June at 18:30"` parses to 2025-06-12 18:30, and
at a non-matching line. -/
theorem parse_datetime_line_spec_witness :
    wFxParsedA.datetime_obj =
      ((wTableA.evdescParts.getD []).head?.bind fun line =>
        parseDateTimeLine 2025 line) ∧
    parseDateTimeLine 2025 "LIVE" = none ∧
    (2025 : Nat) = 2025 ∧ (1 ≤ 6 ∧ 6 ≤ 12) := by
  have h := parse_datetime_line_spec 2025 wBase wTableA wFxParsedA (by decide)
  refine ⟨h.1, h.2.1 "LIVE" (by decide), ?_, ?_⟩
  · exact (h.2.2 ⟨2025, 6, 12, 18, 30⟩ (by decide)).1
  · exact ⟨(h.2.2 ⟨2025, 6, 12, 18, 30⟩ (by decide)).2.1,
      (h.2.2 ⟨2025, 6, 12, 18, 30⟩ (by decide)).2.2.1⟩

/-- C7: a stream row with fewer than 7 cells produces no stream
descriptor; rows that do not parse are skipped while the rest of the
parse proceeds — every stream in the result comes from some table of the
links block, the team-logo section is computed regardless of the stream
tables, and the parse always yields an `EventData` value (partial output,
never a run failure). -/
theorem detail_parse_skips_bad_rows (base_url event_url : String)
    (order : List Nat) (doc : DetailDoc) :
    (∀ t : StreamTable, t.cells.length < 7 →
      parse_stream_table base_url t = none) ∧
    (∀ s ∈ (event_data_of_doc base_url event_url order doc).streams,
      ∃ t ∈ doc.linksBlock.getD [],
        parse_stream_table base_url t = some s) ∧
    (event_data_of_doc base_url event_url order doc).team_logos =
      doc.logoImgs.filterMap (teamLogoOf base_url) ∧
    (event_data_of_doc base_url event_url order doc).starting_lineups = [] := by
  refine ⟨?_, ?_, rfl, rfl⟩
  · intro t ht
    unfold parse_stream_table
    rw [if_pos ht]
  · intro s hs
    unfold event_data_of_doc at hs
    cases hlb : doc.linksBlock with
    | none => rw [hlb] at hs; simp at hs
    | some tables =>
      rw [hlb] at hs
      simp only at hs
      obtain ⟨t, ht, hts⟩ := List.mem_filterMap.mp hs
      obtain ⟨i, _, hit⟩ := List.mem_filterMap.mp ht
      exact ⟨t, by simp [hlb]; exact List.get?_mem hit, hts⟩

/-- Witness stream-table cells: flag, bitrate, three fillers, play link,
type. -/
def wCellFlag : Cell := { img := some { src := "//img/f.png", title := "English" } }

/-- Bitrate cell of the witness table. -/
def wCellBitrate : Cell := { title := "3000 kbps" }

/-- Filler cell of the witness table. -/
def wCellMid : Cell := {}

/-- Play-link cell of the witness table. -/
def wCellLink : Cell := { link := some { href := "/play/1", title := "Stream 1" } }

/-- Type cell of the witness table. -/
def wCellType : Cell := { spanText := some "Flash" }

/-- A well-formed 7-cell stream table. -/
def wGoodTable : StreamTable :=
  { cells := [wCellFlag, wCellBitrate, wCellMid, wCellMid, wCellMid,
              wCellLink, wCellType] }

/-- A malformed 2-cell stream table. -/
def wBadTable : StreamTable := { cells := [wCellFlag, wCellBitrate] }

/-- A detail document with one team logo, one good stream row and one
malformed stream row. -/
def wDoc : DetailDoc :=
  { logoImgs := [{ src := "/img/team.png", alt := " Alpha ", style := "s" }],
    linksBlock := some [wGoodTable, wBadTable] }

/-- The stream descriptor parsed from the good witness table. -/
def wStream : StreamData :=
  { language := some "English", flag_src := some "https://img/f.png",
    bitrate := some "3000 kbps",
    stream_url := some "https://livetv.sx/play/1",
    stream_title := some "Stream 1", stream_type := some "Flash" }

/-- C7 (witness): the malformed 2-cell row yields no descriptor, while
the parsed stream of the same document is traced back to a table of the
links block. -/
theorem detail_parse_skips_bad_rows_witness :
    parse_stream_table wBase wBadTable = none ∧
    (∃ t ∈ wDoc.linksBlock.getD [],
      parse_stream_table wBase t = some wStream) :=
  ⟨(detail_parse_skips_bad_rows wBase "https://livetv.sx/eventinfo/111/a/" [0, 1]
      wDoc).1 wBadTable (by decide),
   (detail_parse_skips_bad_rows wBase "https://livetv.sx/eventinfo/111/a/" [0, 1]
      wDoc).2.1 wStream (by decide)⟩

/-- C9 (counterexample): enrichment fields are *not* always materialized
as empty containers in the merged record.  Enriching a stub with a detail
page that yields no logos and no streams (the `EnrichmentData` side holds
empty containers) leaves the record's `team_logos`/`streams` keys absent
(`none`), not empty lists — and no league-table field exists anywhere in
the record. -/
theorem merge_fields_stay_absent :
    process_fixture_concurrent
        (fun _ => some (event_data_of_doc wBase
          "https://livetv.sx/eventinfo/222/gd/" [] {})) wFxB = wFxB ∧
    (event_data_of_doc wBase "https://livetv.sx/eventinfo/222/gd/" []
        {}).team_logos = [] ∧
    (event_data_of_doc wBase "https://livetv.sx/eventinfo/222/gd/" []
        {}).streams = [] ∧
    wFxB.team_logos = none ∧
    wFxB.streams = none := by
  decide

/-- C9 (amended): inside `EnrichmentData` the fields default to empty
containers, but the merge copies an enrichment field onto the record only
when it is non-empty: an empty field leaves the stub's key unchanged
(absent when it was absent), a non-empty one is stored. -/
theorem merge_copies_nonempty_fields
    (fetchDetails : String → Option EventData) (fx : Fixture)
    (url : String) (d : EventData) (hurl : fx.event_url = some url)
    (hne : ¬ url = "") (hd : fetchDetails url = some d) :
    (d.team_logos = [] →
      (process_fixture_concurrent fetchDetails fx).team_logos =
        fx.team_logos) ∧
    (¬ d.team_logos = [] →
      (process_fixture_concurrent fetchDetails fx).team_logos =
        some d.team_logos) ∧
    (d.streams = [] →
      (process_fixture_concurrent fetchDetails fx).streams = fx.streams) ∧
    (¬ d.streams = [] →
      (process_fixture_concurrent fetchDetails fx).streams =
        some d.streams) ∧
    (∀ base u (order : List Nat) (doc : DetailDoc),
      (event_data_of_doc base u order doc).starting_lineups = [] ∧
      (doc.logoImgs = [] →
        (event_data_of_doc base u order doc).team_logos = [])) := by
  refine ⟨?_, ?_, ?_, ?_, ?_⟩
  · intro hlog
    by_cases hstr : d.streams = [] <;>
      simp [process_fixture_concurrent, hurl, hne, hd, hlog, hstr,
        List.isEmpty_iff]
  · intro hlog
    by_cases hstr : d.streams = [] <;>
      simp [process_fixture_concurrent, hurl, hne, hd, hlog, hstr,
        List.isEmpty_iff]
  · intro hstr
    by_cases hlog : d.team_logos = [] <;>
      simp [process_fixture_concurrent, hurl, hne, hd, hlog, hstr,
        List.isEmpty_iff]
  · intro hstr
    by_cases hlog : d.team_logos = [] <;>
      simp [process_fixture_concurrent, hurl, hne, hd, hlog, hstr,
        List.isEmpty_iff]
  · intro base u order doc
    refine ⟨rfl, ?_⟩
    intro hlim
    simp [event_data_of_doc, hlim]

/-- C9 (amended, witness): the copy behaviour at a concrete fixture whose
detail page yields no logos and no streams, and at an empty document. -/
theorem merge_copies_nonempty_fields_witness :
    (process_fixture_concurrent (fun _ => some {}) wFxB).team_logos =
      wFxB.team_logos ∧
    (process_fixture_concurrent (fun _ => some {}) wFxB).streams =
      wFxB.streams ∧
    (event_data_of_doc wBase "u" [] {}).team_logos = [] := by
  have h := merge_copies_nonempty_fields (fun _ => some {}) wFxB
    "https://livetv.sx/eventinfo/222/gd/" {} (by decide) (by decide) rfl
  exact ⟨h.1 rfl, h.2.2.1 rfl,
    (h.2.2.2.2 wBase "u" [] {}).2 rfl⟩

/-- C10: `categorize_fixtures` splits its input into the fixtures with a
present, truthy `stream_url` outside `['', '#', 'N/A']` (live) and the
rest (upcoming); both lists are order-preserving sublists of the input,
their concatenation is a permutation of the input, and membership in the
live list is exactly the valid-stream test. -/
theorem categorize_fixtures_partition (bs : List BFixture) :
    (categorize_fixtures bs).1 = bs.filter hasValidStreamUrl ∧
    (categorize_fixtures bs).2 = (bs.filter fun f => !hasValidStreamUrl f) ∧
    ((categorize_fixtures bs).1 ++ (categorize_fixtures bs).2).Perm bs ∧
    (categorize_fixtures bs).1.Sublist bs ∧
    (categorize_fixtures bs).2.Sublist bs ∧
    (∀ f, f ∈ (categorize_fixtures bs).1 ↔
      f ∈ bs ∧ hasValidStreamUrl f = true) ∧
    (∀ f, f ∈ (categorize_fixtures bs).2 ↔
      f ∈ bs ∧ ¬ hasValidStreamUrl f = true) := by
  rw [categorize_fixtures_eq]
  refine ⟨rfl, rfl, ?_, ?_, ?_, ?_, ?_⟩
  · exact List.filter_append_perm _ bs
  · exact List.filter_sublist bs
  · exact List.filter_sublist bs
  · intro f; simp [List.mem_filter]
  · intro f; simp [List.mem_filter]

/-- C1 (counterexample): `save_to_json` is not atomic.  Writing new data
over a destination that previously held `"[\"old\"]"` exposes an
intermediate observable content (the empty file left by the truncating
`open`) that is neither the prior bytes nor the final bytes — refuting
"the destination file's bytes are exactly what they were before the call"
for an interruption before completion, and with it the claimed
temp-file/sync/rename write pattern. -/
theorem save_to_json_not_atomic :
    ¬ (∀ obs ∈ observableContents "/app/live.json" (some "[\"old\"]")
          (save_to_json id "/app" "live.json" "[\"new\"]"),
        obs = some "[\"old\"]" ∨
        obs = contentAfter (save_to_json id "/app" "live.json" "[\"new\"]")
          "/app/live.json" (some "[\"old\"]")) := by
  intro h
  have := h (some "") (by decide)
  simp [contentAfter, save_to_json, applyFSStep] at this

/-- C1 (amended): `save_to_json` writes the destination file directly —
a truncating `open` followed by a write of the serialized data, with no
temporary file, sync or rename.  A run to completion leaves the
serialized data; an interruption between the `open` and the completed
write is observable as an empty destination; no other path is touched. -/
theorem save_to_json_direct_write (dump : α → String)
    (cwd filename : String) (data : α) (init : Option String) :
    save_to_json dump cwd filename data =
      [FSStep.openTrunc (cwd ++ "/" ++ filename),
       FSStep.writeAll (cwd ++ "/" ++ filename) (dump data)] ∧
    observableContents (cwd ++ "/" ++ filename) init
        (save_to_json dump cwd filename data) =
      [init, some "", some (dump data)] ∧
    (∀ q, ¬ q = cwd ++ "/" ++ filename →
      contentAfter (save_to_json dump cwd filename data) q init = init) := by
  refine ⟨rfl, ?_, ?_⟩
  · simp [save_to_json, observableContents, applyFSStep]
  · intro q hq
    have hne : ¬ cwd ++ "/" ++ filename = q := fun h => hq h.symm
    simp [save_to_json, contentAfter, applyFSStep, hne]

/-- C1 (amended, witness): the direct-write description at a concrete
serializer, path and prior content. -/
theorem save_to_json_direct_write_witness :
    contentAfter (save_to_json id "/app" "live.json" "[\"new\"]")
      "/app/upcoming.json" (some "keep") = some "keep" :=
  (save_to_json_direct_write id "/app" "live.json" "[\"new\"]"
    (some "keep")).2.2 "/app/upcoming.json" (by decide)

/-- C6 (counterexample): the team-logo fetch is not issued with a
15-second timeout — `scrape_team_logos` issues its single GET with
`timeout=10` (`vet.py` line 179). -/
theorem scrape_team_logos_timeout_not_15 :
    ((scrape_team_logos (fun _ _ => none) "https://livetv.sx"
        "https://livetv.sx/eventinfo/1/x/").1.all
      fun r => r.timeout == 15) = false := by
  decide

/-- C6 (amended): the listing fetch and the event-detail fetch are issued
with a fixed 15-second timeout, while the team-logo fetch is issued with
a 10-second timeout. -/
theorem fetch_request_timeouts
    (httpL : String → Nat → Option (List ListingTable))
    (httpD : String → Nat → Option DetailDoc)
    (now : PyDateTime) (base_url sport_url event_url : String)
    (order : List Nat) :
    ((get_fixtures_for_sport httpL now base_url sport_url).1.all
        fun r => r.timeout == 15) = true ∧
    ((get_event_details_concurrent httpD base_url order event_url).1.all
        fun r => r.timeout == 15) = true ∧
    ((scrape_team_logos httpD base_url event_url).1.all
        fun r => r.timeout == 10) = true := by
  exact ⟨rfl, rfl, rfl⟩

/-- C8: while the in-progress flag is set, `perform_scraping` returns at
once as a no-op — the global state (stored fixture lists, timestamps,
counters) is returned unchanged and no file-system effect is issued. -/
theorem perform_scraping_guarded (dump : List BFixture → String)
    (cwd nowIso : String) (broadcasts : List BFixture) (st : ScrapedData)
    (h : st.is_scraping = true) :
    perform_scraping dump cwd nowIso broadcasts st = (st, []) := by
  simp [perform_scraping, h]

/-- C8 (witness): the guard at a concrete in-progress state. -/
theorem perform_scraping_guarded_witness :
    perform_scraping (fun _ => "[]") "/app" "2026-10-12T00:00:00"
        [{ fixture := some "A vs B" }]
        { live_fixtures := [{ fixture := some "A vs B" }],
          is_scraping := true } =
      ({ live_fixtures := [{ fixture := some "A vs B" }],
         is_scraping := true }, []) :=
  perform_scraping_guarded _ _ _ _ _ rfl

end Vieus
